/-
Verification of the analog-forecasting core of the SWx_modules repository.

The Python source is shallowly embedded:
  * timestamps, timedeltas and synthetic indexes are modelled as `Int`
    (a point on the time axis, in arbitrary fixed units);
  * floating-point values are modelled as `Option Rat`, with `none`
    standing for NaN and `some q` for a finite value;
  * fallible code (Python exceptions) returns `Except String`;
  * pandas label slicing `.loc[a:b]` (inclusive on both ends) and
    positional slicing `.iloc[a:b]` (Python slice semantics, negative
    indices counted from the end) are embedded explicitly.
-/
import Mathlib

/-! ## Generic helpers: Python / numpy / pandas primitives -/

/-- Python `int()` applied to an exact rational: truncation toward zero. -/
def intTrunc (q : ℚ) : Int :=
  if q < 0 then ⌈q⌉ else ⌊q⌋

/-- Python positional slice `xs[a:b]` (step 1): negative bounds count from
the end, then both bounds are clamped to `[0, n]`. -/
def pySlice {α : Type} (xs : List α) (a b : Int) : List α :=
  let n : Int := xs.length
  let a' : Int := if a < 0 then max (a + n) 0 else min a n
  let b' : Int := if b < 0 then max (b + n) 0 else min b n
  (xs.drop a'.toNat).take (b' - a').toNat

/-- Number of NaN entries of a float array (`np.count_nonzero(np.isnan(x))`). -/
def countNan (xs : List (Option ℚ)) : Nat :=
  (xs.filter (fun x => x.isNone)).length

/-- Number of non-NaN entries of a float array. -/
def countValid (xs : List (Option ℚ)) : Nat :=
  (xs.filter (fun x => x.isSome)).length

/-- Embeds `np.nanmean`: mean of the non-NaN entries; NaN when none remain. -/
def nanmean (xs : List (Option ℚ)) : Option ℚ :=
  let vs := xs.filterMap id
  if vs.length = 0 then none else some (vs.sum / vs.length)

/-- Insertion into an ascending list, for the sort underlying `np.nanmedian`. -/
def insSorted (x : ℚ) : List ℚ → List ℚ
  | [] => [x]
  | y :: ys => if x ≤ y then x :: y :: ys else y :: insSorted x ys

/-- Ascending insertion sort. -/
def sortAsc (xs : List ℚ) : List ℚ :=
  xs.foldr insSorted []

/-- Embeds `np.nanmedian`: median of the non-NaN entries (mean of the two middle
entries for an even count); NaN when none remain. -/
def nanmedian (xs : List (Option ℚ)) : Option ℚ :=
  let vs := sortAsc (xs.filterMap id)
  let n := vs.length
  if n = 0 then none
  else if n % 2 = 1 then some (vs.getD (n / 2) 0)
  else some ((vs.getD (n / 2 - 1) 0 + vs.getD (n / 2) 0) / 2)

/-- Elementwise `(y - y_ref) ** 2` with NaN propagation. -/
def sqDiffs (y yref : List (Option ℚ)) : List (Option ℚ) :=
  (y.zip yref).map (fun p =>
    match p.1, p.2 with
    | some u, some v => some ((u - v) ^ 2)
    | _, _ => none)

/-! ## analog.py: listing_analogs

`listing_analogs` (single-column path, blind window given as a pair of
Timedeltas): repeatedly take `df_crit.idxmin()[0]` (the timestamp of the
first minimal score of the first column), then shrink the pool with
`pd.concat([df_crit.loc[:t - before], df_crit.loc[t + after:]])`.
A criterion series is modelled as a list of (timestamp, score) pairs with
ascending timestamps; `.loc[:x]` / `.loc[x:]` are the label filters
`ts ≤ x` / `x ≤ ts`. -/

/-- Timestamp of the first occurrence of the minimal score
(`df_crit.idxmin()[0]` on the first column). -/
def idxminTs (crit : List (Int × ℚ)) : Option Int :=
  match crit with
  | [] => none
  | r :: rs =>
    some ((rs.foldl (fun best x => if x.2 < best.2 then x else best) r).1)

/-- Pool left after a pick at `t`:
`pd.concat([df_crit.loc[:t - before], df_crit.loc[t + after:]])`. -/
def blindFilter (crit : List (Int × ℚ)) (t before after : Int) : List (Int × ℚ) :=
  crit.filter (fun r => r.1 ≤ t - before) ++ crit.filter (fun r => t + after ≤ r.1)

/-- The `while len(list_analogs) < nb_analogs and len(df_crit) > 0` loop of
`listing_analogs`; the count of picks still to make is the fuel. -/
def listingLoop (before after : Int) : Nat → List (Int × ℚ) → List Int
  | 0, _ => []
  | _ + 1, [] => []
  | n + 1, r :: rs =>
    match idxminTs (r :: rs) with
    | none => []
    | some t => t :: listingLoop before after n (blindFilter (r :: rs) t before after)

/-- Embeds `listing_analogs` with a `(before, after)` pair of Timedeltas and a
single score column. -/
def listing_analogs (crit : List (Int × ℚ)) (nb_analogs : Nat)
    (before after : Int) : List Int :=
  listingLoop before after nb_analogs crit

theorem idxminTs_mem (crit : List (Int × ℚ)) (t : Int)
    (h : idxminTs crit = some t) : t ∈ crit.map Prod.fst := by
  match crit with
  | [] => simp [idxminTs] at h
  | r :: rs =>
    simp only [idxminTs, Option.some.injEq] at h
    subst h
    have : ∀ (l : List (Int × ℚ)) (b : Int × ℚ),
        l.foldl (fun best x => if x.2 < best.2 then x else best) b = b ∨
        l.foldl (fun best x => if x.2 < best.2 then x else best) b ∈ l := by
      intro l
      induction l with
      | nil => intro b; left; rfl
      | cons x xs ih =>
        intro b
        simp only [List.foldl_cons]
        rcases ih (if x.2 < b.2 then x else b) with h1 | h1
        · rw [h1]
          by_cases hx : x.2 < b.2
          · right; simp [hx]
          · left; simp [hx]
        · right; exact List.mem_cons_of_mem _ h1
    rcases this rs r with h1 | h1
    · rw [h1]; simp
    · simp only [List.map_cons, List.mem_cons]
      right
      exact List.mem_map_of_mem Prod.fst h1

theorem mem_blindFilter_ts (crit : List (Int × ℚ)) (t before after s : Int)
    (h : s ∈ (blindFilter crit t before after).map Prod.fst) :
    s ≤ t - before ∨ t + after ≤ s := by
  simp only [blindFilter, List.map_append, List.mem_append, List.mem_map,
    List.mem_filter, decide_eq_true_eq] at h
  rcases h with ⟨r, ⟨_, hr⟩, hs⟩ | ⟨r, ⟨_, hr⟩, hs⟩
  · left; rw [← hs]; exact hr
  · right; rw [← hs]; exact hr

theorem mem_blindFilter_of_mem (crit : List (Int × ℚ)) (t before after : Int)
    (r : Int × ℚ) (h : r ∈ blindFilter crit t before after) : r ∈ crit := by
  simp only [blindFilter, List.mem_append, List.mem_filter] at h
  rcases h with ⟨h1, _⟩ | ⟨h1, _⟩ <;> exact h1

theorem listingLoop_subset (before after : Int) (n : Nat)
    (crit : List (Int × ℚ)) :
    ∀ s ∈ listingLoop before after n crit, s ∈ crit.map Prod.fst := by
  induction n generalizing crit with
  | zero => intro s hs; simp [listingLoop] at hs
  | succ n ih =>
    intro s hs
    match crit with
    | [] => simp [listingLoop] at hs
    | r :: rs =>
      rw [listingLoop] at hs
      split at hs
      · exact absurd hs (List.not_mem_nil s)
      · next t ht =>
        rcases List.mem_cons.mp hs with h1 | h1
        · rw [h1]; exact idxminTs_mem _ t ht
        · have h2 := ih _ s h1
          simp only [List.mem_map] at h2 ⊢
          obtain ⟨p, hp, hps⟩ := h2
          exact ⟨p, mem_blindFilter_of_mem _ _ _ _ p hp, hps⟩

/-- Claim C1 (amended part): the selection loop is pairwise compatible with
the blind window in the one-sided, boundary-exclusive sense: every
later-selected timestamp `s` after a pick `t` satisfies
`s ≤ t - before` or `t + after ≤ s`. -/
theorem listing_analogs_blind_window_pairwise
    (crit : List (Int × ℚ)) (nb_analogs : Nat) (before after : Int) :
    (listing_analogs crit nb_analogs before after).Pairwise
      (fun t s => s ≤ t - before ∨ t + after ≤ s) := by
  unfold listing_analogs
  induction nb_analogs generalizing crit with
  | zero => simp [listingLoop]
  | succ n ih =>
    match crit with
    | [] => simp [listingLoop]
    | r :: rs =>
      rw [listingLoop]
      split
      · exact List.Pairwise.nil
      · next t ht =>
        refine List.Pairwise.cons ?_ (ih _)
        intro s hs
        exact mem_blindFilter_ts _ t before after s
          (listingLoop_subset before after n _ s hs)

/-- Claim C1 (counterexample): with scores `(0, 5), (1, 3)` and blind
window `(1, 1)`, the loop returns `[1, 0]`; the two selected timestamps
satisfy `0 ∈ [1 - 1, 1 + 1]` and are at distance `1 < before + after = 2`,
so the closed-interval form of the claim is false on the code. -/
theorem listing_analogs_closed_interval_violated :
    listing_analogs [(0, 5), (1, 3)] 2 1 1 = [1, 0] ∧
    ((1 : Int) - 1 ≤ 0 ∧ (0 : Int) ≤ 1 + 1) ∧
    (1 : Int) - 0 < 1 + 1 := by
  refine ⟨?_, by decide, by decide⟩
  rfl

/-! ## splitting.py

The DataFrame index is modelled as a list of `Int` timestamps in ascending
order. `resolution` is `index[1] - index[0]`; every code path below is
reached with at least two rows (pandas would raise `IndexError` otherwise).
-/

/-- Embeds `df.index[1] - df.index[0]`. -/
def resolution (idx : List Int) : Int :=
  idx.getD 1 0 - idx.getD 0 0

/-- Embeds `get_length_from_count`: `(resolution * count, count, resolution)`. -/
def get_length_from_count (idx : List Int) (count : Int) : Int × Int × Int :=
  (resolution idx * count, count, resolution idx)

/-- Embeds `get_length_from_dates`: inclusive row count between two dates
(`len(df.loc[date_1:date_2].index)`), then `get_length_from_count`. -/
def get_length_from_dates (idx : List Int) (date_1 date_2 : Int) : Int × Int × Int :=
  get_length_from_count idx ((idx.filter (fun t => date_1 ≤ t ∧ t ≤ date_2)).length)

/-- Embeds `get_length_from_portion`: `int(len(df.index) * portion)` rows. -/
def get_length_from_portion (idx : List Int) (portion : ℚ) : Int × Int × Int :=
  get_length_from_count idx (intTrunc ((idx.length : ℚ) * portion))

/-- Embeds `get_length_from_time_length`: `int(time_length / (index[1] - index[0]))`
rows (exact division of the two durations, then Python `int()`). -/
def get_length_from_time_length (idx : List Int) (time_length : Int) : Int × Int × Int :=
  get_length_from_count idx (intTrunc ((time_length : ℚ) / (resolution idx : ℚ)))

/-- Embeds `get_length`: precedence date pair > count > time length > portion,
then either the unresolved sentinel (`error=True`) or the whole series. -/
def get_length (idx : List Int) (date_start date_end : Option Int)
    (portion : Option ℚ) (count : Option Int) (time_length : Option Int)
    (error : Bool) : Option (Int × Int × Int) :=
  match date_start, date_end with
  | some ds, some de =>
    if de < ds then some (get_length_from_dates idx de ds)
    else some (get_length_from_dates idx ds de)
  | _, _ =>
    match count with
    | some c => some (get_length_from_count idx c)
    | none =>
      match time_length with
      | some tl => some (get_length_from_time_length idx tl)
      | none =>
        match portion with
        | some p => some (get_length_from_portion idx p)
        | none =>
          if error then none else some (get_length_from_count idx (idx.length : Int))

/-- A date argument of the splitting interface: absent, an integer row
offset, or a date value (parsed strings and datetimes both model as a
point on the time axis). -/
inductive DateArg : Type
  | absent : DateArg
  | rowInt : Int → DateArg
  | dateVal : Int → DateArg
deriving DecidableEq

/-- Embeds `date_formatting`: an integer is resolved through `df.index[i]`
(Python negative indexing included), a date is returned as is, and an
absent argument raises `TypeError` when `error=True`, else yields `None`. -/
def date_formatting (idx : List Int) (d : DateArg) (error : Bool) :
    Except String (Option Int) :=
  match d with
  | .rowInt i =>
    let n : Int := idx.length
    if 0 ≤ i ∧ i < n then .ok (some (idx.getD i.toNat 0))
    else if -n ≤ i ∧ i < 0 then .ok (some (idx.getD (i + n).toNat 0))
    else .error "IndexError: index out of bounds"
  | .dateVal t => .ok (some t)
  | .absent =>
    if error then .error "TypeError: the date must be an integer, a string, or a datetime object"
    else .ok none

/-- Embeds `format_dates_for_splitting`: format the four date arguments with
`error=False`, then make pattern and test consecutive: a missing
`pattern_end` is `test_start - resolution` (a `TypeError` when
`test_start` is also `None`), and a missing `test_start` is
`pattern_end + resolution`. -/
def format_dates_for_splitting (idx : List Int)
    (pattern_start pattern_end test_start test_end : DateArg) :
    Except String (Option Int × Option Int × Option Int × Option Int) := do
  let ps ← date_formatting idx pattern_start false
  let pe ← date_formatting idx pattern_end false
  let ts ← date_formatting idx test_start false
  let te ← date_formatting idx test_end false
  match pe, ts with
  | none, none =>
    .error "TypeError: unsupported operand types for subtraction of NoneType and Timedelta"
  | none, some t => .ok (ps, some (t - resolution idx), some t, te)
  | some p, none => .ok (ps, some p, some (p + resolution idx), te)
  | some p, some t => .ok (ps, some p, some t, te)

/-- The keyword arguments of `get_counts_for_splitting` / `split_indexes`
other than the four date bounds. -/
structure SplitSpec : Type where
  pattern_portion : Option ℚ
  pattern_count : Option Int
  pattern_length : Option Int
  test_portion : Option ℚ
  test_count : Option Int
  test_length : Option Int
deriving DecidableEq

/-- Embeds `get_counts_for_splitting`, applied after the dates have been
formatted: resolve pattern and test counts independently, mirror a
missing one, raise `ValueError` when neither resolves; also return the
whole-series count. -/
def get_counts_for_splitting (idx : List Int)
    (ps pe ts te : Option Int) (spec : SplitSpec) :
    Except String (Int × Int × Int) :=
  let whole := (get_length_from_count idx (idx.length : Int)).2.1
  let patternRes := get_length idx ps pe spec.pattern_portion spec.pattern_count
    spec.pattern_length true
  let testRes := get_length idx ts te spec.test_portion spec.test_count
    spec.test_length true
  match patternRes, testRes with
  | none, none => .error "ValueError: not enough information to split the DataFrame"
  | none, some t => .ok (t.2.1, t.2.1, whole)
  | some p, none => .ok (p.2.1, p.2.1, whole)
  | some p, some t => .ok (p.2.1, t.2.1, whole)

/-- Embeds `list(df.index).index(t)` with the `except` fallback
`len(df.loc[:t].index)`: position of the first exact match, else the
count of rows at or before `t`. -/
def locPos (idx : List Int) (t : Int) : Int :=
  match idx.findIdx? (fun x => x = t) with
  | some p => (p : Int)
  | none => ((idx.filter (fun x => x ≤ t)).length : Int)

/-- Computes `[first, last]` of a sliced index; `IndexError` on an empty slice
(the source subscripts `indexes[0]` and `indexes[-1]`). -/
def rangeOf (l : List Int) : Except String (Int × Int) :=
  match l.head?, l.getLast? with
  | some a, some b => .ok (a, b)
  | _, _ => .error "IndexError: index 0 is out of bounds"

/-- The value returned by `split_indexes`. -/
structure SplitResult : Type where
  train_past : Option (Int × Int)
  train_future : Option (Int × Int)
  pattern_range : Int × Int
  test_range : Int × Int
  pattern_size : Int
  test_size : Int
deriving DecidableEq

/-- Embeds `split_indexes`: format the dates, resolve the two counts, locate the
test then pattern start positions (explicit dates take precedence, with
the nearest-preceding-row fallback), slice the pattern and test windows,
and build the training ranges: everything before the pattern window, and
everything from the end of the test window up to the last `test_size`
rows, each present only under the corresponding room check. -/
def split_indexes (idx : List Int)
    (pattern_start pattern_end test_start test_end : DateArg)
    (spec : SplitSpec) : Except String SplitResult := do
  let (ps, _pe, ts, te) ← format_dates_for_splitting idx
    pattern_start pattern_end test_start test_end
  let (pattern_size, test_size, whole) ← get_counts_for_splitting idx
    ps _pe ts te spec
  let test_start_index : Int :=
    match ts with
    | some t => locPos idx t
    | none =>
      match ps with
      | some p => locPos idx p + pattern_size
      | none =>
        match te with
        | some t => locPos idx t - test_size
        | none => 0 - test_size
  let pattern_start_index : Int :=
    match ps with
    | some p => locPos idx p
    | none => test_start_index - pattern_size
  let pattern_range ← rangeOf (pySlice idx pattern_start_index (pattern_start_index + pattern_size))
  let test_range ← rangeOf (pySlice idx test_start_index (test_start_index + test_size))
  let train_past ←
    if pattern_size < pattern_start_index then do
      let r ← rangeOf (pySlice idx 0 pattern_start_index)
      pure (some r)
    else pure none
  let train_future ←
    if test_start_index + test_size + pattern_size < whole then do
      let r ← rangeOf (pySlice idx (test_start_index + test_size) (0 - test_size))
      pure (some r)
    else pure none
  return ⟨train_past, train_future, pattern_range, test_range, pattern_size, test_size⟩

/-- Claim C4: with resolution `r = index[1] - index[0]` positive and a
nonnegative duration `d`, resolving a duration gives
`count = floor(d / r)`, resolving a count `n` gives `duration = n * r`,
resolving the duration `n * r` back gives `n`, and the duration rebuilt
from `floor(d / r)` is within one resolution step below `d`. -/
theorem resolve_count_duration_roundtrip (idx : List Int) (d n : Int)
    (hr : 0 < resolution idx) (hd : 0 ≤ d) :
    (get_length_from_time_length idx d).2.1 = ⌊(d : ℚ) / (resolution idx : ℚ)⌋ ∧
    (get_length_from_count idx n).1 = n * resolution idx ∧
    (get_length_from_time_length idx ((get_length_from_count idx n).1)).2.1 = n ∧
    (get_length_from_count idx ((get_length_from_time_length idx d).2.1)).1 ≤ d ∧
    d - resolution idx <
      (get_length_from_count idx ((get_length_from_time_length idx d).2.1)).1 := by
  set r := resolution idx with hrdef
  have hr0 : r ≠ 0 := ne_of_gt hr
  have hrQ : (0 : ℚ) < (r : ℚ) := by exact_mod_cast hr
  have hrQ0 : (r : ℚ) ≠ 0 := ne_of_gt hrQ
  have hdQ : (0 : ℚ) ≤ (d : ℚ) := by exact_mod_cast hd
  have hq : (0 : ℚ) ≤ (d : ℚ) / (r : ℚ) := div_nonneg hdQ (le_of_lt hrQ)
  have htrunc : intTrunc ((d : ℚ) / (r : ℚ)) = ⌊(d : ℚ) / (r : ℚ)⌋ := by
    unfold intTrunc
    rw [if_neg (not_lt.mpr hq)]
  refine ⟨?_, ?_, ?_, ?_, ?_⟩
  · simp only [get_length_from_time_length, get_length_from_count, ← hrdef]
    exact htrunc
  · simp only [get_length_from_count, ← hrdef]
    exact mul_comm r n
  · simp only [get_length_from_time_length, get_length_from_count, ← hrdef]
    have : ((r * n : Int) : ℚ) / (r : ℚ) = (n : ℚ) := by
      push_cast
      field_simp
    rw [this]
    unfold intTrunc
    by_cases hn : (n : ℚ) < 0
    · rw [if_pos hn, Int.ceil_intCast]
    · rw [if_neg hn, Int.floor_intCast]
  · simp only [get_length_from_time_length, get_length_from_count, ← hrdef]
    rw [htrunc]
    have h1 : (r : ℚ) * (⌊(d : ℚ) / (r : ℚ)⌋ : ℚ) ≤ (r : ℚ) * ((d : ℚ) / (r : ℚ)) :=
      mul_le_mul_of_nonneg_left (Int.floor_le _) (le_of_lt hrQ)
    rw [mul_div_cancel₀ (d : ℚ) hrQ0] at h1
    exact_mod_cast h1
  · simp only [get_length_from_time_length, get_length_from_count, ← hrdef]
    rw [htrunc]
    have h1 : (d : ℚ) / (r : ℚ) - 1 < (⌊(d : ℚ) / (r : ℚ)⌋ : ℚ) := Int.sub_one_lt_floor _
    have h2 : (r : ℚ) * ((d : ℚ) / (r : ℚ) - 1) < (r : ℚ) * (⌊(d : ℚ) / (r : ℚ)⌋ : ℚ) :=
      (mul_lt_mul_left hrQ).mpr h1
    rw [mul_sub, mul_one, mul_div_cancel₀ (d : ℚ) hrQ0] at h2
    exact_mod_cast h2

/-- Witness for C4 at `idx = [0, 2, 4]` (`r = 2`), `d = 5`, `n = 3`. -/
theorem resolve_count_duration_roundtrip_witness :
    0 < resolution [0, 2, 4] ∧ (0 : Int) ≤ 5 ∧
    (get_length_from_time_length [0, 2, 4] 5).2.1 =
      ⌊(5 : ℚ) / ((resolution [0, 2, 4] : Int) : ℚ)⌋ ∧
    (get_length_from_count [0, 2, 4] 3).1 = 3 * resolution [0, 2, 4] :=
  ⟨by decide, by decide,
    (resolve_count_duration_roundtrip [0, 2, 4] 5 3 (by decide) (by decide)).1,
    (resolve_count_duration_roundtrip [0, 2, 4] 5 3 (by decide) (by decide)).2.1⟩

/-- The 100-row evenly spaced series of the splitting scenario, with
timestamps `0, 1, ..., 99` (the row numbered `k` in one-based speech has
timestamp `k - 1`). -/
def idx100 : List Int :=
  (List.range 100).map Int.ofNat

/-- Claim C2 (counterexample): pattern length 10 ending at row 50, test
length 10, on 100 evenly spaced rows. The code returns the future
training window `(60, 89)` (rows 61 to 90), so row 61, which lies in the
rows 41 to 70 that the claim says training excludes, is in training. -/
theorem split_indexes_scenario_claim_false :
    split_indexes idx100 DateArg.absent (DateArg.rowInt 49) DateArg.absent DateArg.absent
      ⟨none, some 10, none, none, some 10, none⟩ =
      .ok ⟨some (0, 39), some (60, 89), (40, 49), (50, 59), 10, 10⟩ ∧
    ((40 : Int) ≤ 60 ∧ (60 : Int) ≤ 69) := by
  constructor
  · rfl
  · decide

/-- Claim C2 (amended): in the scenario the pattern window is rows 41 to
50 (timestamps 40 to 49), the test window rows 51 to 60, the past
training window rows 1 to 40, and the future training window rows 61 to
90; training therefore excludes exactly rows 41 to 60 and the trailing 10
rows 91 to 100. -/
theorem split_indexes_scenario_windows :
    split_indexes idx100 DateArg.absent (DateArg.rowInt 49) DateArg.absent DateArg.absent
      ⟨none, some 10, none, none, some 10, none⟩ =
      .ok ⟨some (0, 39), some (60, 89), (40, 49), (50, 59), 10, 10⟩ := by
  rfl

/-- Claim C8: a split specified with counts only (no pattern or test date
bound at all) does not fall back to the last `test_count` rows:
`format_dates_for_splitting` evaluates `test_start - resolution` with
`test_start = None` and raises `TypeError`, so `split_indexes` fails. -/
theorem split_indexes_no_dates_type_error :
    split_indexes idx100 DateArg.absent DateArg.absent DateArg.absent DateArg.absent
      ⟨none, some 10, none, none, some 10, none⟩ =
      .error "TypeError: unsupported operand types for subtraction of NoneType and Timedelta" := by
  rfl

/-! ## criteria/old_mse.py and criteria/mdse.py: compute

`y_ref` defaults to `y * 0` (NaNs stay NaN); the two variants differ in
the aggregation (`np.nanmean` against `np.nanmedian`) and in the length
mismatch policy (`return np.nan` against `raise ValueError`). -/

/-- Embeds `MSE.compute` (old_mse.py). -/
def MSE_compute (y : List (Option ℚ)) (y_ref : Option (List (Option ℚ))) : Option ℚ :=
  let yr := match y_ref with
    | none => y.map (Option.map (fun _ => 0))
    | some r => r
  if yr.length ≠ y.length then none
  else nanmean (sqDiffs y yr)

/-- Embeds `MdSE.compute` (mdse.py). -/
def MdSE_compute (y : List (Option ℚ)) (y_ref : Option (List (Option ℚ))) :
    Except String (Option ℚ) :=
  let yr := match y_ref with
    | none => y.map (Option.map (fun _ => 0))
    | some r => r
  if yr.length ≠ y.length then
    .error "ValueError: the length of y and y_ref must be the same"
  else .ok (nanmedian (sqDiffs y yr))

/-- Claim C5: on a length mismatch `MSE.compute` returns NaN while
`MdSE.compute` raises `ValueError`; on equal lengths MSE aggregates the
squared differences with the NaN-ignoring mean and MdSE with the
NaN-ignoring median. -/
theorem mse_mdse_length_mismatch_policy (y yref : List (Option ℚ)) :
    MSE_compute y (some yref) =
      (if yref.length = y.length then nanmean (sqDiffs y yref) else none) ∧
    MdSE_compute y (some yref) =
      (if yref.length = y.length then .ok (nanmedian (sqDiffs y yref))
       else .error "ValueError: the length of y and y_ref must be the same") := by
  unfold MSE_compute MdSE_compute
  by_cases h : yref.length = y.length <;> simp [h]

/-! ## criteria/old_mse.py: moving_application

`df[col].rolling(length, min_periods=int(nanprop * length), step=step)
.apply(self.compute, raw=True, kwargs with y_ref bound to df_ref[col].values)`,
one column at a time. The rolling window of size `length` is anchored at
its right edge; pandas only calls the function at a placement whose
window holds at least `min_periods` non-NaN observations (otherwise the
output is NaN), passes the raw window including its NaNs, and with
`step=s` only evaluates the placements `0, s, 2s, ...`. A placement is
modelled as the pair (right-edge position, output value). -/

/-- The raw window pandas passes at right-edge position `i`: the last
`length` of the first `i + 1` rows (shorter near the start). -/
def rollingWindow (length : Nat) (xs : List (Option ℚ)) (i : Nat) : List (Option ℚ) :=
  (xs.take (i + 1)).drop (i + 1 - length)

/-- Embeds `Series.rolling(length, min_periods, step).apply(f, raw=True)`. -/
def rollingApply (length : Nat) (min_periods : Int) (step : Nat)
    (xs : List (Option ℚ)) (f : List (Option ℚ) → Option ℚ) :
    List (Nat × Option ℚ) :=
  (List.range xs.length).filterMap (fun i =>
    if i % step = 0 then
      some (i,
        if min_periods ≤ (countValid (rollingWindow length xs i) : Int) then
          f (rollingWindow length xs i)
        else none)
    else none)

/-- Embeds `MSE.moving_application` on one column: window length is the row count
of the reference, `min_periods = int(nanprop * length)`, and a `step`
keyword `k` is turned into the pandas stride `length // k`. -/
def MSE_moving_application (df df_ref : List (Option ℚ)) (nanprop : ℚ)
    (step_arg : Option Nat) : List (Nat × Option ℚ) :=
  let length := df_ref.length
  let min_periods := intTrunc (nanprop * (df_ref.length : ℚ))
  let step := match step_arg with
    | some k => length / k
    | none => 1
  rollingApply length min_periods step df (fun w => MSE_compute w (some df_ref))

theorem rollingWindow_length (length : Nat) (xs : List (Option ℚ)) (i : Nat)
    (h : i < xs.length) :
    (rollingWindow length xs i).length = min (i + 1) length := by
  simp only [rollingWindow, List.length_drop, List.length_take]
  omega

theorem mem_moving_application (df df_ref : List (Option ℚ)) (nanprop : ℚ)
    (i : Nat) (v : Option ℚ)
    (hmem : (i, v) ∈ MSE_moving_application df df_ref nanprop none) :
    i < df.length ∧
    v = (if intTrunc (nanprop * (df_ref.length : ℚ)) ≤
            (countValid (rollingWindow df_ref.length df i) : Int) then
          MSE_compute (rollingWindow df_ref.length df i) (some df_ref)
        else none) := by
  simp only [MSE_moving_application, rollingApply, List.mem_filterMap,
    List.mem_range, Nat.mod_one, if_true, Option.some.injEq, Prod.mk.injEq] at hmem
  obtain ⟨a, ha, haq, hav⟩ := hmem
  subst haq
  exact ⟨ha, hav.symm⟩

/-- Claim C7 (amended): in `MSE.moving_application` (default stride) every
output is anchored at the right edge `i` of a window of nominal length
equal to the row count of the reference; every placement whose window is
not yet fully populated yields NaN; every placement whose window holds
strictly fewer than `int(nanprop * length)` valid points yields NaN; and
a fully populated placement with at least `int(nanprop * length)` valid
points yields `compute` of the raw window against the reference. -/
theorem moving_application_right_edge_threshold
    (df df_ref : List (Option ℚ)) (nanprop : ℚ) (i : Nat) (v : Option ℚ)
    (hmem : (i, v) ∈ MSE_moving_application df df_ref nanprop none) :
    (i + 1 < df_ref.length → v = none) ∧
    ((countValid (rollingWindow df_ref.length df i) : Int) <
        intTrunc (nanprop * (df_ref.length : ℚ)) → v = none) ∧
    (df_ref.length ≤ i + 1 →
      intTrunc (nanprop * (df_ref.length : ℚ)) ≤
        (countValid (rollingWindow df_ref.length df i) : Int) →
      v = MSE_compute (rollingWindow df_ref.length df i) (some df_ref)) := by
  obtain ⟨hi, hv⟩ := mem_moving_application df df_ref nanprop i v hmem
  refine ⟨?_, ?_, ?_⟩
  · intro hshort
    have hlen : (rollingWindow df_ref.length df i).length = i + 1 := by
      rw [rollingWindow_length _ _ _ hi]
      omega
    have hne : df_ref.length ≠ (rollingWindow df_ref.length df i).length := by
      rw [hlen]; omega
    rw [hv]
    split
    · simp [MSE_compute, if_pos hne]
    · rfl
  · intro hlow
    rw [hv, if_neg (not_le.mpr hlow)]
  · intro _ hok
    rw [hv, if_pos hok]

/-- Witness for C7 (amended) at `df = [1, 2]`, `df_ref = [0]`,
`nanprop = 1`, placement `i = 0`. -/
theorem moving_application_right_edge_threshold_witness :
    ((0 : Nat), (some 1 : Option ℚ)) ∈
      MSE_moving_application [some 1, some 2] [some 0] 1 none ∧
    (some 1 : Option ℚ) =
      MSE_compute (rollingWindow (List.length [(some 0 : Option ℚ)])
        [some 1, some 2] 0) (some [some 0]) := by
  have heval : MSE_moving_application [some 1, some 2] [some 0] 1 none =
      [(0, some 1), (1, some 4)] := by
    have hrange : List.range 2 = [0, 1] := rfl
    simp only [MSE_moving_application, rollingApply, List.length_cons, List.length_nil]
    norm_num [hrange, List.filterMap_cons, rollingWindow, countValid, MSE_compute,
      sqDiffs, nanmean, intTrunc]
  have hmem : ((0 : Nat), (some 1 : Option ℚ)) ∈
      MSE_moving_application [some 1, some 2] [some 0] 1 none := by
    rw [heval]
    simp
  exact ⟨hmem,
    (moving_application_right_edge_threshold [some 1, some 2] [some 0] 1 0
      (some 1) hmem).2.2 (by decide)
      (by norm_num [intTrunc, countValid, rollingWindow])⟩

/-- Claim C7 (counterexample): reference of 4 rows, `nanprop = 4/5`, and a
candidate window with 3 of 4 points valid: the valid fraction `3/4` is
below the threshold `4/5`, yet the fully populated placement `i = 3`
yields `1`, not NaN, because pandas compares the valid count with
`min_periods = int(0.8 * 4) = 3`. -/
theorem moving_application_fraction_threshold_counterexample :
    MSE_moving_application [some 1, some 1, none, some 1]
      [some 0, some 0, some 0, some 0] (4 / 5) none =
      [(0, none), (1, none), (2, none), (3, some 1)] ∧
    (3 : ℚ) / 4 < 4 / 5 := by
  constructor
  · have hrange : List.range 4 = [0, 1, 2, 3] := rfl
    simp only [MSE_moving_application, rollingApply, List.length_cons, List.length_nil,
      Nat.zero_add]
    norm_num [hrange, List.filterMap_cons, rollingWindow, countValid, MSE_compute,
      sqDiffs, nanmean, intTrunc]
  · norm_num

/-- Claim C10: a `step` keyword `k` is not itself the placement stride:
the stride handed to the rolling engine is `length // k` where `length`
is the reference row count, and for `0 < k1 ≤ k2 ≤ length` the stride of
`k2` is at most the stride of `k1`, so a larger `k` samples placements at
least as densely. -/
theorem moving_application_step_is_window_div_k
    (df df_ref : List (Option ℚ)) (nanprop : ℚ) (k : Nat) :
    MSE_moving_application df df_ref nanprop (some k) =
      rollingApply df_ref.length (intTrunc (nanprop * (df_ref.length : ℚ)))
        (df_ref.length / k) df (fun w => MSE_compute w (some df_ref)) ∧
    (∀ k1 k2 : Nat, 0 < k1 → k1 ≤ k2 →
      df_ref.length / k2 ≤ df_ref.length / k1) := by
  constructor
  · rfl
  · intro k1 k2 h1 h2
    exact Nat.div_le_div_left h2 h1

/-- Witness for C10 at a reference of 4 rows, `k1 = 1`, `k2 = 2`. -/
theorem moving_application_step_is_window_div_k_witness :
    (0 : Nat) < 1 ∧ (1 : Nat) ≤ 2 ∧
    (List.replicate 4 (some (0 : ℚ))).length / 2 ≤
      (List.replicate 4 (some (0 : ℚ))).length / 1 :=
  ⟨by decide, by decide,
    (moving_application_step_is_window_div_k [] (List.replicate 4 (some 0)) 1 7).2
      1 2 (by decide) (by decide)⟩

/-! ## analog.py: extract_analogs, and the frame effects of the core

A DataFrame cell is dynamically typed in the source: data columns hold
floats, while the `date` column written by `extract_analogs` holds the
timestamps of the index. -/

/-- One DataFrame cell: a float (possibly NaN) or a timestamp. -/
inductive Cell : Type
  | fl : Option ℚ → Cell
  | ts : Int → Cell
deriving DecidableEq

/-- A DataFrame: a timestamp index plus named columns of cells. -/
structure Frame : Type where
  index : List Int
  data : List (String × List Cell)
deriving DecidableEq

/-- Column assignment `df[c] = v`: overwrite the column when it exists,
else append it. -/
def set_col (data : List (String × List Cell)) (c : String) (v : List Cell) :
    List (String × List Cell) :=
  if data.any (fun p => p.1 = c) then
    data.map (fun p => if p.1 = c then (c, v) else p)
  else data ++ [(c, v)]

/-- Records the in-place effect of the date-column write `df[date] = df.index`
on the frame of the caller. -/
def withDateCol (df : Frame) : Frame :=
  ⟨df.index, set_col df.data "date" (df.index.map Cell.ts)⟩

/-- Embeds `df.iloc[a:b]` followed by `df_analog.index = np.arange(0, len, 1)`:
every column is sliced positionally and the result is reindexed onto the
relative integer axis. -/
def sliceFrame (df : Frame) (a b : Int) : Frame :=
  ⟨(List.range (pySlice df.index a b).length).map Int.ofNat,
   df.data.map (fun p => (p.1, pySlice p.2 a b))⟩

/-- The extraction loop of `extract_analogs`: for each date, locate its
row (`get_loc`, a `KeyError` when absent), shift by `index_position`, and
slice `size_analog` rows before and `size_forecast` rows after. -/
def extract_frames (df : Frame) (dates : List Int)
    (size_analog size_forecast : Nat) (index_position : Int) :
    Except String (List (Int × Frame)) :=
  match dates with
  | [] => .ok []
  | d :: ds =>
    match df.index.findIdx? (fun x => x = d) with
    | none => .error "KeyError: date not in the index"
    | some p =>
      match extract_frames df ds size_analog size_forecast index_position with
      | .error e => .error e
      | .ok rest =>
        .ok ((d, sliceFrame df
          ((p : Int) - index_position - size_analog)
          ((p : Int) - index_position + size_forecast)) :: rest)

/-- Embeds `extract_analogs`: truncate the date list to `nb_extracted`, write the
`date` column onto the frame of the caller in place, extract one reindexed
frame per date, and key the stacked result by the originating date
(`pd.concat` raises on an empty frame list). The first component is the
frame of the caller after the call. -/
def extract_analogs (df : Frame) (analogs_index : List Int)
    (size_analog size_forecast nb_extracted : Nat) (index_position : Int) :
    Frame × Except String (List (Int × Frame)) :=
  let dates := if nb_extracted < analogs_index.length
    then analogs_index.take nb_extracted else analogs_index
  let dfm := withDateCol df
  (dfm,
    match extract_frames dfm dates size_analog size_forecast index_position with
    | .ok [] => .error "ValueError: no objects to concatenate"
    | r => r)

/-- Row position of a date (`df.index.get_loc(date)` for a date present
in the index). -/
def posOf (idx : List Int) (d : Int) : Nat :=
  (idx.findIdx? (fun x => x = d)).getD 0

theorem pySlice_length_of_fit {α : Type} (xs : List α) (a b : Int)
    (ha : 0 ≤ a) (hab : a ≤ b) (hb : b ≤ (xs.length : Int)) :
    ((pySlice xs a b).length : Int) = b - a := by
  simp only [pySlice, List.length_take, List.length_drop]
  omega

theorem extract_frames_window_length (df : Frame) (dates : List Int)
    (sa sf : Nat) (ip : Int) (l : List (Int × Frame))
    (h : extract_frames df dates sa sf ip = .ok l)
    (hfit : ∀ d ∈ dates, (sa : Int) ≤ (posOf df.index d : Int) - ip ∧
      (posOf df.index d : Int) - ip + sf ≤ (df.index.length : Int)) :
    ∀ pr ∈ l, pr.2.index.length = sa + sf := by
  induction dates generalizing l with
  | nil =>
    simp only [extract_frames, Except.ok.injEq] at h
    subst h
    intro pr hpr
    exact absurd hpr (List.not_mem_nil pr)
  | cons d ds ih =>
    rw [extract_frames] at h
    match hfind : df.index.findIdx? (fun x => x = d) with
    | none => rw [hfind] at h; exact absurd h (by simp)
    | some p =>
      rw [hfind] at h
      match hrest : extract_frames df ds sa sf ip with
      | .error e => rw [hrest] at h; exact absurd h (by simp)
      | .ok rest =>
        rw [hrest] at h
        simp only [Except.ok.injEq] at h
        subst h
        have hp : (posOf df.index d : Int) = (p : Int) := by
          simp [posOf, hfind]
        intro pr hpr
        rcases List.mem_cons.mp hpr with h1 | h1
        · subst h1
          have hd := hfit d (List.mem_cons_self d ds)
          rw [hp] at hd
          have hlen : ((pySlice df.index ((p : Int) - ip - sa) ((p : Int) - ip + sf)).length : Int) =
              ((p : Int) - ip + sf) - ((p : Int) - ip - sa) :=
            pySlice_length_of_fit df.index _ _ (by omega) (by omega) (by omega)
          simp only [sliceFrame, List.length_map, List.length_range]
          omega
        · exact ih rest hrest (fun x hx => hfit x (List.mem_cons_of_mem d hx)) pr h1

/-- Claim C3 (amended): every window produced by `extract_analogs` has
exactly `size_analog + size_forecast` rows on the relative integer axis,
provided the shifted anchor of its source date leaves room for
`size_analog` rows before and `size_forecast` rows after it inside the
series; near the boundaries the positional slice is truncated or empty
instead. -/
theorem extract_analogs_window_length (df : Frame) (dates : List Int)
    (sa sf nb : Nat) (ip : Int) (out : List (Int × Frame))
    (hout : (extract_analogs df dates sa sf nb ip).2 = .ok out)
    (hfit : ∀ d ∈ dates, (sa : Int) ≤ (posOf df.index d : Int) - ip ∧
      (posOf df.index d : Int) - ip + sf ≤ (df.index.length : Int)) :
    ∀ pr ∈ out, pr.2.index.length = sa + sf := by
  simp only [extract_analogs] at hout
  set dates' := if nb < dates.length then dates.take nb else dates with hdates
  have hsub : ∀ d ∈ dates', d ∈ dates := by
    intro d hd
    rw [hdates] at hd
    split at hd
    · exact List.take_subset nb dates hd
    · exact hd
  have hidx : (withDateCol df).index = df.index := rfl
  match hext : extract_frames (withDateCol df) dates' sa sf ip with
  | .error e => rw [hext] at hout; exact absurd hout (by simp)
  | .ok [] => rw [hext] at hout; exact absurd hout (by simp)
  | .ok (x :: xs) =>
    rw [hext] at hout
    simp only [Except.ok.injEq] at hout
    subst hout
    exact extract_frames_window_length (withDateCol df) dates' sa sf ip (x :: xs) hext
      (fun d hd => by rw [hidx]; exact hfit d (hsub d hd))

/-- The five-row series used in the C3 and C9 concrete statements. -/
def dfFive : Frame :=
  ⟨[0, 1, 2, 3, 4], [("v", List.replicate 5 (Cell.fl none))]⟩

/-- Witness for C3 (amended) at the date in row 2 with one pattern row,
one forecast row, and the default anchor `index_position = -1`. -/
theorem extract_analogs_window_length_witness :
    (extract_analogs dfFive [2] 1 1 1 (-1)).2 =
      .ok [(2, ⟨[0, 1], [("v", [Cell.fl none, Cell.fl none]), ("date", [Cell.ts 2, Cell.ts 3])]⟩)] ∧
    (⟨[0, 1], [("v", [Cell.fl none, Cell.fl none]), ("date", [Cell.ts 2, Cell.ts 3])]⟩ : Frame).index.length
      = 1 + 1 :=
  ⟨by rfl,
    extract_analogs_window_length dfFive [2] 1 1 1 (-1)
      [(2, ⟨[0, 1], [("v", [Cell.fl none, Cell.fl none]), ("date", [Cell.ts 2, Cell.ts 3])]⟩)]
      (by rfl) (by decide)
      (2, ⟨[0, 1], [("v", [Cell.fl none, Cell.fl none]), ("date", [Cell.ts 2, Cell.ts 3])]⟩)
      (by decide)⟩

/-- Claim C3 (counterexample): the date in row 0 of a five-row series with
three pattern rows and two forecast rows: the window slice
`iloc[-2:3]` is empty, so the extracted window has 0 rows, not
`3 + 2 = 5`; windows near the series boundaries are truncated. -/
theorem extract_analogs_truncated_window :
    (extract_analogs dfFive [0] 3 2 1 (-1)).2 =
      .ok [(0, ⟨[], [("v", []), ("date", [])]⟩)] ∧
    (⟨[], [("v", []), ("date", [])]⟩ : Frame).index.length = 0 ∧
    (0 : Nat) ≠ 3 + 2 := by
  refine ⟨by rfl, by decide, by decide⟩

/-! ## Frame effects of the core operations (claim C9)

Each definition below is the caller-supplied frame as it stands after the
call, traced from the source:
  * `split_data` / `split_indexes` only read `df` through `.loc` / `.iloc`
    slices, which allocate new objects;
  * `MSE.moving_application` builds a fresh `df_out` DataFrame and only
    reads `df[col]` through `.rolling`;
  * `listing_analogs` rebinds its local name `df_crit` to new `pd.concat`
    results and never assigns into the object of the caller;
  * `MeanStd.standardize` (reached from `Pipeline.set_standardizing`,
    which additionally copies `self.data` first) builds a fresh `df_out`
    indexed like its input and only reads `df_physical[col]`;
  * `extract_analogs` executes the date-column write `df[date] = df.index`,
    an in-place column write on the frame of the caller (`withDateCol`, the first component of
    `extract_analogs` above). -/

/-- Frame of the caller after `split_data` (read-only access). -/
def split_data_frame_after (df : Frame) : Frame := df

/-- Frame of the caller after `MSE.moving_application` (read-only access). -/
def moving_application_frame_after (df : Frame) : Frame := df

/-- Criterion frame of the caller after `listing_analogs` (local rebinding only). -/
def listing_analogs_frame_after (df_crit : Frame) : Frame := df_crit

/-- Frame of the caller after `MeanStd.standardize` (fresh output frame). -/
def standardize_frame_after (df_physical : Frame) : Frame := df_physical

/-- Claim C9 (counterexample): `extract_analogs` does mutate the
caller-supplied frame: after the call the five-row series has gained a
`date` column, so the input object is not unchanged. -/
theorem extract_analogs_mutates_input :
    (extract_analogs dfFive [2] 1 1 1 (-1)).1 ≠ dfFive := by
  decide

/-- Claim C9 (amended): splitting, criterion computation, analog listing
and standardization leave the caller-supplied frame unchanged, while
analog extraction writes the `date` column (a copy of the index) onto the
input frame in place. -/
theorem core_ops_frame_effects (df : Frame) (dates : List Int)
    (sa sf nb : Nat) (ip : Int) :
    split_data_frame_after df = df ∧
    moving_application_frame_after df = df ∧
    listing_analogs_frame_after df = df ∧
    standardize_frame_after df = df ∧
    (extract_analogs df dates sa sf nb ip).1 =
      ⟨df.index, set_col df.data "date" (df.index.map Cell.ts)⟩ :=
  ⟨rfl, rfl, rfl, rfl, rfl⟩

/-! ## preprocessing/spectra.py and criteria/spectral_slope.py

`psd` is embedded up to the Fourier transform itself: the NaN guard, the
mean removal, the `np.interp` fill of NaN samples and the scaling
`* dt / len(signal) * 2` with `spectra[0] /= 2` are explicit, while the
transcendental kernel `np.power(np.abs(np.fft.rfft(.)), 2)` is a
parameter `fftMag2` (a finite input always yields a finite spectrum, and
`np.fft.rfft` returns `n // 2 + 1` bins). Likewise, the transcendental
`linear_fit(np.log(freq[1:]), np.log(spec[1:]))` slope is a parameter
`logfit`. The claim-C6 theorem is quantified over both parameters, so it
holds for every value of the unmodelled real-valued computations. -/

/-- Coercion of a sample position into the value field. -/
def natToRat (i : Nat) : ℚ := (i : ℚ)

/-- Linear interpolation of `np.interp` past the first sample point:
`prev` is the latest sample at or before `x`. -/
def interpFrom (prev : ℚ × ℚ) : List (ℚ × ℚ) → ℚ → ℚ
  | [], _ => prev.2
  | q :: qs, x =>
    if x ≤ q.1 then
      if q.1 = prev.1 then q.2
      else prev.2 + (q.2 - prev.2) * (x - prev.1) / (q.1 - prev.1)
    else interpFrom q qs x

/-- Embeds `np.interp(x, xp, fp)` for ascending sample points `pts = zip xp fp`:
clamped to the end values outside the sampled range. -/
def interpAt (pts : List (ℚ × ℚ)) (x : ℚ) : ℚ :=
  match pts with
  | [] => 0
  | p :: ps => if x ≤ p.1 then p.2 else interpFrom p ps x

/-- Mean removal followed by the `np.interp` fill of NaN samples:
`y = signal - np.nanmean(signal)` and
`np.interp(np.arange(n), yi[mask], y[mask])`. -/
def demeanInterp (signal : List (Option ℚ)) : List ℚ :=
  let m := (nanmean signal).getD 0
  let y := signal.map (Option.map (fun v => v - m))
  let pts := y.enum.filterMap (fun p => p.2.map (fun v => (natToRat p.1, v)))
  (List.range y.length).map (fun i => interpAt pts (natToRat i))

/-- Embeds `psd(signal, dt)`: an all-NaN array of `n // 2` bins when more than
`n - 2` samples are NaN, else the scaled spectrum of the demeaned,
interpolated signal with the zero-frequency bin halved. -/
def psd (fftMag2 : List ℚ → List ℚ) (dt : ℚ) (signal : List (Option ℚ)) :
    List (Option ℚ) :=
  if (signal.length : Int) - 2 < (countNan signal : Int) then
    List.replicate (signal.length / 2) none
  else
    match (fftMag2 (demeanInterp signal)).map
        (fun v => v * dt / (signal.length : ℚ) * 2) with
    | [] => []
    | s0 :: rest => ((s0 / 2) :: rest).map some

/-- Embeds `SpectralSlope.compute`, single-signal branch (`df is None`): NaN when
`np.count_nonzero(np.isnan(spec[1:])) < 2 or len(spec) < 3`, else the
fitted log-log slope minus the reference. -/
def SpectralSlope_compute (fftMag2 : List ℚ → List ℚ)
    (logfit : List (Option ℚ) → Option ℚ) (dt r : ℚ)
    (y : List (Option ℚ)) : Option ℚ :=
  let spec := psd fftMag2 dt y
  if (countNan (spec.drop 1) : Int) < 2 ∨ spec.length < 3 then none
  else (logfit spec).map (fun s => s - r)

theorem countNan_map_some (l : List ℚ) : countNan (l.map some) = 0 := by
  simp [countNan, List.filter_map]

/-- The NaN-free six-sample window of the claim-C6 statement. -/
def sig6 : List (Option ℚ) :=
  [some 1, some 2, some 0, some 3, some 1, some 2]

theorem demeanInterp_length (signal : List (Option ℚ)) :
    (demeanInterp signal).length = signal.length := by
  simp [demeanInterp]

/-- Claim C6: on a NaN-free window of six samples the computed spectrum
has 4 bins, none of them NaN, yet the single-signal branch of
`SpectralSlope.compute` returns NaN — for every possible value of the
Fourier kernel and of the log-log fit — because its guard reads
`count_nonzero(isnan(spec[1:])) < 2` where the multi-signal branch (and
the documented intent) read `> 2`. -/
theorem spectral_slope_nanfree_spectrum_returns_nan
    (fftMag2 : List ℚ → List ℚ) (logfit : List (Option ℚ) → Option ℚ) (dt r : ℚ)
    (hlen : ∀ xs : List ℚ, (fftMag2 xs).length = xs.length / 2 + 1) :
    SpectralSlope_compute fftMag2 logfit dt r sig6 = none ∧
    countNan ((psd fftMag2 dt sig6).drop 1) = 0 ∧
    3 ≤ (psd fftMag2 dt sig6).length := by
  have hg : ¬ ((sig6.length : Int) - 2 < (countNan sig6 : Int)) := by decide
  have hy : (demeanInterp sig6).length = 6 := by
    rw [demeanInterp_length]
    rfl
  have hsplen : ((fftMag2 (demeanInterp sig6)).map
      (fun v => v * dt / (sig6.length : ℚ) * 2)).length = 4 := by
    rw [List.length_map, hlen, hy]
  obtain ⟨s0, rest, hcons⟩ : ∃ s0 rest, (fftMag2 (demeanInterp sig6)).map
      (fun v => v * dt / (sig6.length : ℚ) * 2) = s0 :: rest := by
    match hm : (fftMag2 (demeanInterp sig6)).map
        (fun v => v * dt / (sig6.length : ℚ) * 2) with
    | [] => rw [hm] at hsplen; exact absurd hsplen (by simp)
    | s0 :: rest => exact ⟨s0, rest, rfl⟩
  have hrest : rest.length = 3 := by
    rw [hcons] at hsplen
    simpa using hsplen
  have hpsd : psd fftMag2 dt sig6 = ((s0 / 2) :: rest).map some := by
    unfold psd
    rw [if_neg hg, hcons]
  have hlen4 : (psd fftMag2 dt sig6).length = 4 := by
    rw [hpsd]
    simp [hrest]
  have hnan : countNan ((psd fftMag2 dt sig6).drop 1) = 0 := by
    rw [hpsd]
    simpa using countNan_map_some rest
  refine ⟨?_, hnan, ?_⟩
  · unfold SpectralSlope_compute
    rw [if_pos]
    left
    rw [hnan]
    decide
  · rw [hlen4]
    decide

/-- Witness for C6 with a concrete Fourier kernel of the right bin count
and a concrete fit. -/
theorem spectral_slope_nanfree_spectrum_returns_nan_witness :
    SpectralSlope_compute (fun xs => List.replicate (xs.length / 2 + 1) 0)
      (fun _ => none) 1 0 sig6 = none ∧
    countNan ((psd (fun xs => List.replicate (xs.length / 2 + 1) 0) 1 sig6).drop 1) = 0 ∧
    3 ≤ (psd (fun xs => List.replicate (xs.length / 2 + 1) 0) 1 sig6).length :=
  spectral_slope_nanfree_spectrum_returns_nan _ _ 1 0 (fun xs => by simp)
